import Mathlib

/-!
Verification of the DuckyOS FAT12 read path.

Shallow embedding of two implementations found in the repository:

* the hosted C reader (`fat12read`): `readBootSector` / `readFat` /
  `readRootDirectory` / `findFile` / `readFile`, and
* the boot-sector assembly loader (`boot.asm`): `.load_kernel_loop`,
  `.search_kernel`, `disk_read` / `disk_reset`.

Machine integers are modelled as `Nat` (with an explicit `% 2 ^ 32`
where the C source performs `uint32_t` arithmetic that can wrap, and
`% 2 ^ 16` where the assembly performs 16-bit arithmetic).  The backing
medium is modelled as a total byte function `disk : Nat → Nat`; a byte
buffer (the loaded FAT) is likewise a function `fat : Nat → Nat`, with
the byte range `< 256` stated as a hypothesis where a theorem needs it.
Sector reads performed by the cluster-chain walker are recorded in an
explicit log of `(lba, sectorCount)` pairs so that claims about issued
I/O can be stated.
-/

/-- FAT12 boot sector (BPB + EBPB), mirroring the packed C `BootSector`
struct field for field.  Multi-byte scalar fields are `Nat`; the raw
byte-array fields are `List Nat`. -/
structure BootSector where
  BootJumpInstruction : List Nat
  OemIdentifier : List Nat
  BytesPerSector : Nat
  SectorsPerCluster : Nat
  ReservedSectors : Nat
  FatCount : Nat
  DirEntryCount : Nat
  TotalSectors : Nat
  MediaDescriptorType : Nat
  SectorsPerFat : Nat
  SectorsPerTrack : Nat
  Heads : Nat
  HiddenSectors : Nat
  LargeSectorCount : Nat
  DriveNumber : Nat
  Reserved0 : Nat
  Signature : Nat
  VolumeId : Nat
  VolumeLabel : List Nat
  SystemId : List Nat
  deriving Repr, DecidableEq

/-- FAT12 directory entry, mirroring the packed C `DirectoryEntry`
struct.  `Name` is the raw 11-byte 8.3 name. -/
structure DirectoryEntry where
  Name : List Nat
  Attributes : Nat
  Reserved0 : Nat
  CreatedTimeTenths : Nat
  CreatedTime : Nat
  CreatedDate : Nat
  AccessedDate : Nat
  FirstClusterHigh : Nat
  ModifiedTime : Nat
  ModifiedDate : Nat
  FirstClusterLow : Nat
  Size : Nat
  deriving Repr, DecidableEq

/-- Field ranges guaranteed by the C declared types (`uint16_t`,
`uint8_t`) together with the BPB invariants the spec assumes
(`bytesPerSector > 0`, `sectorsPerCluster >= 1`, `sectorsPerFat >= 1`). -/
structure WFBootSector (bs : BootSector) : Prop where
  bps_pos : 0 < bs.BytesPerSector
  spc_pos : 0 < bs.SectorsPerCluster
  spf_pos : 0 < bs.SectorsPerFat
  bps_lt : bs.BytesPerSector < 65536
  spc_lt : bs.SectorsPerCluster < 256
  reserved_lt : bs.ReservedSectors < 65536
  fatCount_lt : bs.FatCount < 256
  dirEntries_lt : bs.DirEntryCount < 65536
  spf_lt : bs.SectorsPerFat < 65536

/-- C `readSectors(disk, lba, count, out)`: seek to byte offset
`lba * BytesPerSector` and read `count * BytesPerSector` bytes.  The
medium is the total byte function `disk`, so the modelled read always
succeeds and returns the bytes it materializes. -/
def readSectors (disk : Nat → Nat) (bytesPerSector lba count : Nat) : List Nat :=
  (List.range (count * bytesPerSector)).map (fun i => disk (lba * bytesPerSector + i))

/-- Root-directory start LBA from `readRootDirectory`:
`ReservedSectors + SectorsPerFat * FatCount`. -/
def rootDirLba (bs : BootSector) : Nat :=
  bs.ReservedSectors + bs.SectorsPerFat * bs.FatCount

/-- Root-directory size in sectors from `readRootDirectory`:
`rootDirByteSize / BytesPerSector`, incremented when the division
leaves a remainder. -/
def rootDirSectors (bs : BootSector) : Nat :=
  let rootDirByteSize := bs.DirEntryCount * 32
  let sectors := rootDirByteSize / bs.BytesPerSector
  if rootDirByteSize % bs.BytesPerSector ≠ 0 then sectors + 1 else sectors

/-- C global `g_RootDirectoryEnd`: the LBA one past the root directory,
where the data area starts. -/
def rootDirectoryEnd (bs : BootSector) : Nat :=
  rootDirLba bs + rootDirSectors bs

/-- Cluster to LBA conversion in `readFile`:
`g_RootDirectoryEnd + (currentCluster - 2) * SectorsPerCluster`.
The C expression subtracts in `int` and converts to `uint32_t`, hence
the arithmetic over `Int` reduced `% 2 ^ 32`. -/
def clusterLBA (bs : BootSector) (rootDirEnd currentCluster : Nat) : Nat :=
  (((rootDirEnd : Int) + ((currentCluster : Int) - 2) * (bs.SectorsPerCluster : Int)) % (2 ^ 32)).toNat

/-- The 12-bit FAT lookup in `readFile`: byte offset
`fatIndex = currentCluster * 3 / 2`, then the 16-bit little-endian word
at that offset, masked `& 0x0FFF` for an even cluster and shifted
`>> 4` for an odd one. -/
def fatNextEntry (fat : Nat → Nat) (currentCluster : Nat) : Nat :=
  let fatIndex := currentCluster * 3 / 2
  let w := fat fatIndex + 256 * fat (fatIndex + 1)
  if currentCluster % 2 = 0 then w % 4096 else w / 16

/-- C `findFile(name11)`: scan `g_RootDirectory[i]` for
`i < DirEntryCount` in order, return the first entry whose 11 name
bytes `memcmp`-equal the key, else `NULL`.  The directory is the entry
list, the scan bound the second argument. -/
def findFile (name11 : List Nat) : List DirectoryEntry → Nat → Option DirectoryEntry
  | _, 0 => none
  | [], _ + 1 => none
  | e :: rest, n + 1 => if e.Name = name11 then some e else findFile name11 rest n

/-- Loop body and do-while control of C `readFile`, fuelled.  Each
iteration first reads `SectorsPerCluster` sectors at
`clusterLBA bs rootDirEnd cur` (logged as an `(lba, count)` pair and
appended to the output bytes), then decodes the FAT entry of `cur`;
the loop continues while the decoded value is `< 0x0FF8`.  Returns
`none` when the fuel runs out (the C loop has no cycle guard). -/
def readFileGo (bs : BootSector) (rootDirEnd : Nat) (fat disk : Nat → Nat) :
    Nat → Nat → Option (List (Nat × Nat) × List Nat)
  | 0, _ => none
  | fuel + 1, cur =>
    let lba := clusterLBA bs rootDirEnd cur
    let chunk := readSectors disk bs.BytesPerSector lba bs.SectorsPerCluster
    let next := fatNextEntry fat cur
    if next < 0xFF8 then
      (readFileGo bs rootDirEnd fat disk fuel next).map
        (fun r => ((lba, bs.SectorsPerCluster) :: r.1, chunk ++ r.2))
    else
      some ([(lba, bs.SectorsPerCluster)], chunk)

/-- C `readFile(fileEntry, disk, outputBuffer)`: walk the FAT chain
starting at `fileEntry->FirstClusterLow`. -/
def readFile (bs : BootSector) (rootDirEnd : Nat) (fat disk : Nat → Nat)
    (fileEntry : DirectoryEntry) (fuel : Nat) : Option (List (Nat × Nat) × List Nat) :=
  readFileGo bs rootDirEnd fat disk fuel fileEntry.FirstClusterLow

/-- The cluster sequence the do-while loop of `readFile` visits:
the current cluster, then (while the decoded FAT entry is `< 0x0FF8`)
the chain of the decoded entry.  `none` when the fuel runs out. -/
def chainFrom (fat : Nat → Nat) : Nat → Nat → Option (List Nat)
  | 0, _ => none
  | fuel + 1, cur =>
    let next := fatNextEntry fat cur
    if next < 0xFF8 then (chainFrom fat fuel next).map (fun cs => cur :: cs)
    else some [cur]

/-- Retry loop of the assembly `disk_read` routine.  `attempt i` tells
whether the i-th BIOS read attempt (INT 13h AH=02h) reports success and
`resetOk i` whether the `disk_reset` call issued after a failed i-th
attempt succeeds; the remaining arguments are the attempt index and the
current DI counter (3 at entry).  A failed attempt is followed by a
`disk_reset` call; `disk_reset` executes `jc floppy_error`, so a failed
reset aborts the whole operation immediately.  After a successful reset
DI is decremented and the loop re-entered while DI is nonzero (a reset
after the final failed attempt gives the same failure result whether it
succeeds or aborts).  Returns (success flag, number of read attempts
issued, number of resets issued). -/
def diskReadGo (attempt resetOk : Nat → Bool) : Nat → Nat → Bool × Nat × Nat
  | _, 0 => (false, 0, 0)
  | i, di + 1 =>
    if attempt i then (true, 1, 0)
    else if resetOk i then
      if di = 0 then (false, 1, 1)
      else
        let r := diskReadGo attempt resetOk (i + 1) di
        (r.1, r.2.1 + 1, r.2.2 + 1)
    else (false, 1, 1)

/-- Assembly `disk_read`: the retry loop entered with DI = 3. -/
def disk_read (attempt resetOk : Nat → Bool) : Bool × Nat × Nat :=
  diskReadGo attempt resetOk 0 3

/-- Cluster to LBA conversion of the assembly `.load_kernel_loop`:
`mov ax, [kernel_cluster]` / `add ax, 31`, a 16-bit add with the data
area start hardcoded as cluster + 31. -/
def asmClusterLBA (cluster : Nat) : Nat :=
  (cluster + 31) % 65536

/-- The 12-bit FAT lookup of the assembly loader: offset
`cluster * 3 / 2` (MUL/DIV), the 16-bit word loaded at
`buffer + offset`, then `shr ax, 4` for an odd cluster and
`and ax, 0x0FFF` for an even one.  The 16-bit register load is
modelled by the reduction `% 65536`. -/
def asmFatNextEntry (fat : Nat → Nat) (cluster : Nat) : Nat :=
  let off := cluster * 3 / 2
  let w := (fat off + 256 * fat (off + 1)) % 65536
  if cluster % 2 = 0 then w % 4096 else w / 16

/-- Convenience constructor for directory entries whose timestamp
fields are irrelevant. -/
def mkEntry (name : List Nat) (attrs firstCluster size : Nat) : DirectoryEntry :=
  ⟨name, attrs, 0, 0, 0, 0, 0, 0, 0, 0, firstCluster, size⟩

/-- The standard 1.44MB layout assembled into `boot.asm`'s BPB and used
by the repository's disk images. -/
def stdBS : BootSector :=
  ⟨[0xEB, 0x58, 0x90], [0x4D, 0x53, 0x57, 0x49, 0x4E, 0x34, 0x2E, 0x31],
   512, 1, 1, 2, 224, 2880, 0xF0, 9, 18, 2, 0, 0, 0, 0, 0x29, 0x78563412,
   [0x44, 0x75, 0x63, 0x6B, 0x79, 0x4F, 0x53, 0x20, 0x20, 0x20, 0x20],
   [0x46, 0x41, 0x54, 0x31, 0x32, 0x20, 0x20, 0x20]⟩

/-- The synthetic FAT buffer of the spec's decode test: bytes
`[0x34, 0x12, 0x56]` at offset 0, zero elsewhere. -/
def ex2Fat : Nat → Nat := fun i => [0x34, 0x12, 0x56].getD i 0

/-- Byte function used as a concrete backing medium in examples. -/
def cexDisk : Nat → Nat := fun i => i % 256

/-- A FAT whose every byte is 0xFF: any entry decodes to an
end-of-chain value. -/
def cexFatFF : Nat → Nat := fun _ => 0xFF

/-- A small BPB (16-byte sectors, 4 root entries, 1-sector FAT) used to
keep concrete walks short. -/
def cexBS5 : BootSector :=
  ⟨[], [], 16, 1, 1, 2, 4, 64, 0xF0, 1, 1, 1, 0, 0, 0, 0, 0, 0, [], []⟩

/-- A FAT holding the chain 2 → 3 → 5 → end-of-chain
(entry 2 = 3, entry 3 = 5, entry 5 = 0xFFF). -/
def cexFat5 : Nat → Nat := fun i => [0, 0, 0, 3, 0x50, 0, 0, 0xF0, 0xFF].getD i 0

/-- The 11-byte 8.3 name `KERNEL  BIN`. -/
def kernelName : List Nat :=
  [0x4B, 0x45, 0x52, 0x4E, 0x45, 0x4C, 0x20, 0x20, 0x42, 0x49, 0x4E]

/-- Directory entry for `KERNEL  BIN`, size 1, first cluster 2. -/
def kernelEntry : DirectoryEntry := mkEntry kernelName 0x20 2 1

/-- Directory entry whose first cluster is already in the end-of-chain
range. -/
def eocEntry : DirectoryEntry := mkEntry kernelName 0x20 0xFF8 0

lemma ceil_div_split (a b : Nat) (hb : 0 < b) :
    (a % b = 0 → (a + b - 1) / b = a / b)
    ∧ (a % b ≠ 0 → (a + b - 1) / b = a / b + 1) := by
  have hmod := Nat.div_add_mod a b
  have hlt : a % b < b := Nat.mod_lt _ hb
  constructor
  · intro h0
    have he : a + b - 1 = b * (a / b) + (b - 1) := by omega
    rw [he, Nat.mul_add_div hb, Nat.div_eq_of_lt (show b - 1 < b by omega),
      Nat.add_zero]
  · intro h1
    have hx : b * (a / b + 1) = b * (a / b) + b := by ring
    have he : a + b - 1 = b * (a / b + 1) + (a % b - 1) := by omega
    rw [he, Nat.mul_add_div hb, Nat.div_eq_of_lt (show a % b - 1 < b by omega),
      Nat.add_zero]

lemma rootDirSectors_eq_ceil (bs : BootSector) (h : 0 < bs.BytesPerSector) :
    rootDirSectors bs
      = (bs.DirEntryCount * 32 + bs.BytesPerSector - 1) / bs.BytesPerSector := by
  unfold rootDirSectors
  by_cases h0 : bs.DirEntryCount * 32 % bs.BytesPerSector = 0
  · simp only [h0, ne_eq, not_true_eq_false, if_false]
    exact ((ceil_div_split _ _ h).1 h0).symm
  · simp only [ne_eq, h0, not_false_eq_true, if_true]
    exact ((ceil_div_split _ _ h).2 h0).symm

/-- Claim C6: the number of sectors read for the root directory is
`ceil(rootDirEntryCount * 32 / bytesPerSector)`: an exact fit adds no
extra sector, a nonzero remainder adds exactly one. -/
theorem rootDirSectors_rounds_up (bs : BootSector) (h : 0 < bs.BytesPerSector) :
    rootDirSectors bs
      = (bs.DirEntryCount * 32 + bs.BytesPerSector - 1) / bs.BytesPerSector
    ∧ (bs.DirEntryCount * 32 % bs.BytesPerSector = 0 →
        rootDirSectors bs = bs.DirEntryCount * 32 / bs.BytesPerSector)
    ∧ (bs.DirEntryCount * 32 % bs.BytesPerSector ≠ 0 →
        rootDirSectors bs = bs.DirEntryCount * 32 / bs.BytesPerSector + 1) := by
  refine ⟨rootDirSectors_eq_ceil bs h, fun h0 => ?_, fun h1 => ?_⟩
  · unfold rootDirSectors
    simp [h0]
  · unfold rootDirSectors
    simp [h1]

/-- Witness for C6 at the standard 1.44MB BPB (224 entries, 512-byte
sectors: an exact fit, 14 sectors). -/
theorem rootDirSectors_rounds_up_witness :
    rootDirSectors stdBS
      = (stdBS.DirEntryCount * 32 + stdBS.BytesPerSector - 1) / stdBS.BytesPerSector
    ∧ (stdBS.DirEntryCount * 32 % stdBS.BytesPerSector = 0 →
        rootDirSectors stdBS = stdBS.DirEntryCount * 32 / stdBS.BytesPerSector)
    ∧ (stdBS.DirEntryCount * 32 % stdBS.BytesPerSector ≠ 0 →
        rootDirSectors stdBS = stdBS.DirEntryCount * 32 / stdBS.BytesPerSector + 1) :=
  rootDirSectors_rounds_up stdBS (by decide)

/-- Counterexample for C2: on the FAT bytes `[0x34, 0x12, 0x56]` the
code decodes entry 1 from the little-endian word `0x5612` at byte
offset 1, shifted right by 4, giving `0x561` — not the `0x156` the
claim states. -/
theorem fat12_decode_spec_example_false :
    fatNextEntry ex2Fat 1 = 0x561 ∧ fatNextEntry ex2Fat 1 ≠ 0x156 := by
  decide

/-- Claim C2 (amended): the 12-bit FAT entry for `i` is the low 12 bits
of the little-endian 16-bit word at byte offset `i*3/2` when `i` is
even and the high 12 bits (shift right by 4) when `i` is odd; on the
FAT beginning with bytes `[0x34, 0x12, 0x56]` entry 0 decodes to
`0x234` and entry 1 to `0x561`. -/
theorem fat12_decode_even_odd (fat : Nat → Nat) (i : Nat)
    (h0 : fat (i * 3 / 2) < 256) (h1 : fat (i * 3 / 2 + 1) < 256) :
    fatNextEntry fat i
      = (fat (i * 3 / 2) + 256 * fat (i * 3 / 2 + 1)) / 2 ^ (4 * (i % 2)) % 4096
    ∧ fatNextEntry ex2Fat 0 = 0x234 ∧ fatNextEntry ex2Fat 1 = 0x561 := by
  refine ⟨?_, by decide, by decide⟩
  unfold fatNextEntry
  rcases Nat.mod_two_eq_zero_or_one i with hp | hp
  · simp [hp]
  · have hw : fat (i * 3 / 2) + 256 * fat (i * 3 / 2 + 1) < 65536 := by omega
    have hq : (fat (i * 3 / 2) + 256 * fat (i * 3 / 2 + 1)) / 16 < 4096 := by
      calc (fat (i * 3 / 2) + 256 * fat (i * 3 / 2 + 1)) / 16
          ≤ 65535 / 16 := Nat.div_le_div_right (by omega)
        _ < 4096 := by norm_num
    simp only [hp]
    norm_num
    rw [Nat.mod_eq_of_lt hq]

/-- Witness for C2 at `i = 1` over the example FAT. -/
theorem fat12_decode_even_odd_witness :
    fatNextEntry ex2Fat 1
      = (ex2Fat (1 * 3 / 2) + 256 * ex2Fat (1 * 3 / 2 + 1)) / 2 ^ (4 * (1 % 2)) % 4096
    ∧ fatNextEntry ex2Fat 0 = 0x234 ∧ fatNextEntry ex2Fat 1 = 0x561 :=
  fat12_decode_even_odd ex2Fat 1 (by decide) (by decide)

lemma clusterLBA_eq_of_le (bs : BootSector) (rde c : Nat) (h2 : 2 ≤ c)
    (hb : rde + (c - 2) * bs.SectorsPerCluster < 2 ^ 32) :
    clusterLBA bs rde c = rde + (c - 2) * bs.SectorsPerCluster := by
  unfold clusterLBA
  have hcast : ((c : Int) - 2) = ((c - 2 : Nat) : Int) := by omega
  rw [hcast, ← Int.natCast_mul, ← Int.natCast_add,
    Int.emod_eq_of_lt (by positivity) (by exact_mod_cast hb)]
  exact Int.toNat_natCast _

lemma rootDirectoryEnd_bound (bs : BootSector) (h : WFBootSector bs) :
    rootDirectoryEnd bs < 2 ^ 25 := by
  obtain ⟨hw1, hw2, hw3, hw4, hw5, hw6, hw7, hw8, hw9⟩ := h
  have h1 : bs.SectorsPerFat * bs.FatCount ≤ 65535 * 255 :=
    Nat.mul_le_mul (by omega) (by omega)
  have h2 : bs.DirEntryCount * 32 / bs.BytesPerSector ≤ bs.DirEntryCount * 32 :=
    Nat.div_le_self _ _
  have h3 : bs.DirEntryCount * 32 ≤ 65535 * 32 := Nat.mul_le_mul (by omega) (by omega)
  unfold rootDirectoryEnd rootDirLba rootDirSectors
  dsimp only
  by_cases h0 : bs.DirEntryCount * 32 % bs.BytesPerSector = 0 <;> simp [h0] <;> omega

/-- Claim C3: for every well-formed BPB and cluster `c ≥ 2`, the chain
walker's sector address is
`reservedSectors + fatCount*sectorsPerFat + ceil(rootDirEntryCount*32 /
bytesPerSector) + (c-2)*sectorsPerCluster`, and at `c = 2` it is
exactly the data-area start LBA. -/
theorem clusterLBA_matches_formula (bs : BootSector) (h : WFBootSector bs)
    (c : Nat) (h2 : 2 ≤ c) (hc : c < 65536) :
    clusterLBA bs (rootDirectoryEnd bs) c
      = bs.ReservedSectors + bs.FatCount * bs.SectorsPerFat
        + (bs.DirEntryCount * 32 + bs.BytesPerSector - 1) / bs.BytesPerSector
        + (c - 2) * bs.SectorsPerCluster
    ∧ clusterLBA bs (rootDirectoryEnd bs) 2 = rootDirectoryEnd bs := by
  have hrde := rootDirectoryEnd_bound bs h
  have hmul : (c - 2) * bs.SectorsPerCluster ≤ 65535 * 255 :=
    Nat.mul_le_mul (by omega) (by have := h.spc_lt; omega)
  constructor
  · rw [clusterLBA_eq_of_le bs _ c h2 (by omega)]
    unfold rootDirectoryEnd rootDirLba
    rw [rootDirSectors_eq_ceil bs h.bps_pos, Nat.mul_comm bs.SectorsPerFat bs.FatCount]
  · rw [clusterLBA_eq_of_le bs _ 2 (by omega)
      (show rootDirectoryEnd bs + (2 - 2) * bs.SectorsPerCluster < 2 ^ 32 by
        simp; omega)]
    simp

/-- Witness for C3 at the standard 1.44MB BPB and cluster 5. -/
theorem clusterLBA_matches_formula_witness :
    clusterLBA stdBS (rootDirectoryEnd stdBS) 5
      = stdBS.ReservedSectors + stdBS.FatCount * stdBS.SectorsPerFat
        + (stdBS.DirEntryCount * 32 + stdBS.BytesPerSector - 1) / stdBS.BytesPerSector
        + (5 - 2) * stdBS.SectorsPerCluster
    ∧ clusterLBA stdBS (rootDirectoryEnd stdBS) 2 = rootDirectoryEnd stdBS :=
  clusterLBA_matches_formula stdBS
    (by constructor <;> decide) 5 (by decide) (by decide)

/-- Claim C4: a decoded FAT value is always at most `0xFFF`; the walk
stops exactly when the decoded value is `>= 0xFF8` (one final logged
read, nothing after it) and continues with the decoded value as the
next cluster when it is `< 0xFF8`. -/
theorem chain_step_eoc_iff (bs : BootSector) (rde : Nat) (fat disk : Nat → Nat)
    (fuel cur : Nat)
    (h0 : fat (cur * 3 / 2) < 256) (h1 : fat (cur * 3 / 2 + 1) < 256) :
    fatNextEntry fat cur ≤ 0xFFF
    ∧ (0xFF8 ≤ fatNextEntry fat cur →
        readFileGo bs rde fat disk (fuel + 1) cur
          = some ([(clusterLBA bs rde cur, bs.SectorsPerCluster)],
              readSectors disk bs.BytesPerSector (clusterLBA bs rde cur)
                bs.SectorsPerCluster))
    ∧ (fatNextEntry fat cur < 0xFF8 →
        readFileGo bs rde fat disk (fuel + 1) cur
          = (readFileGo bs rde fat disk fuel (fatNextEntry fat cur)).map
              (fun r => ((clusterLBA bs rde cur, bs.SectorsPerCluster) :: r.1,
                readSectors disk bs.BytesPerSector (clusterLBA bs rde cur)
                  bs.SectorsPerCluster ++ r.2))) := by
  refine ⟨?_, fun hge => ?_, fun hlt => ?_⟩
  · unfold fatNextEntry
    by_cases hp : cur % 2 = 0
    · rw [if_pos hp]
      have := Nat.mod_lt (fat (cur * 3 / 2) + 256 * fat (cur * 3 / 2 + 1))
        (show (0 : Nat) < 4096 by norm_num)
      omega
    · rw [if_neg hp]
      have hle : (fat (cur * 3 / 2) + 256 * fat (cur * 3 / 2 + 1)) / 16
          ≤ 65535 / 16 := Nat.div_le_div_right (by omega)
      norm_num at hle ⊢
      omega
  · simp only [readFileGo]
    rw [if_neg (by omega)]
  · simp only [readFileGo]
    rw [if_pos hlt]

/-- Witness for C4 at cluster 5 of the example FAT (entry 5 decodes to
`0xFFF`, terminating the walk). -/
theorem chain_step_eoc_iff_witness :
    fatNextEntry cexFat5 5 ≤ 0xFFF
    ∧ (0xFF8 ≤ fatNextEntry cexFat5 5 →
        readFileGo cexBS5 (rootDirectoryEnd cexBS5) cexFat5 cexDisk (1 + 1) 5
          = some ([(clusterLBA cexBS5 (rootDirectoryEnd cexBS5) 5,
                cexBS5.SectorsPerCluster)],
              readSectors cexDisk cexBS5.BytesPerSector
                (clusterLBA cexBS5 (rootDirectoryEnd cexBS5) 5)
                cexBS5.SectorsPerCluster))
    ∧ (fatNextEntry cexFat5 5 < 0xFF8 →
        readFileGo cexBS5 (rootDirectoryEnd cexBS5) cexFat5 cexDisk (1 + 1) 5
          = (readFileGo cexBS5 (rootDirectoryEnd cexBS5) cexFat5 cexDisk 1
                (fatNextEntry cexFat5 5)).map
              (fun r => ((clusterLBA cexBS5 (rootDirectoryEnd cexBS5) 5,
                  cexBS5.SectorsPerCluster) :: r.1,
                readSectors cexDisk cexBS5.BytesPerSector
                  (clusterLBA cexBS5 (rootDirectoryEnd cexBS5) 5)
                  cexBS5.SectorsPerCluster ++ r.2))) :=
  chain_step_eoc_iff cexBS5 (rootDirectoryEnd cexBS5) cexFat5 cexDisk 1 5
    (by decide) (by decide)

/-- Counterexample for C1: a directory entry whose first cluster is
`0xFF8` (already end-of-chain) still causes `readFile` to issue one
sector-read call — the loop is a do-while, so the body runs before the
chain condition is ever checked. -/
theorem readFile_eoc_start_issues_sector_read :
    0xFF8 ≤ eocEntry.FirstClusterLow
    ∧ (readFile cexBS5 (rootDirectoryEnd cexBS5) cexFatFF cexDisk eocEntry 1).map
        (fun r => r.1) = some [(4097, 1)] := by
  decide

/-- Claim C1 (amended): for every directory entry — including one whose
first cluster is already `>= 0xFF8` — any successful `readFile` run
issues at least one sector read, and its first logged read is at the
LBA computed from the entry's first cluster: the loop condition is
checked only after the first read (do-while), not before it. -/
theorem readFile_reads_before_chain_check (bs : BootSector) (rde : Nat)
    (fat disk : Nat → Nat) (entry : DirectoryEntry) (fuel : Nat)
    (r : List (Nat × Nat) × List Nat)
    (h : readFile bs rde fat disk entry (fuel + 1) = some r) :
    1 ≤ r.1.length
    ∧ r.1.head?
        = some (clusterLBA bs rde entry.FirstClusterLow, bs.SectorsPerCluster) := by
  unfold readFile at h
  simp only [readFileGo] at h
  by_cases hlt : fatNextEntry fat entry.FirstClusterLow < 0xFF8
  · rw [if_pos hlt] at h
    rcases Option.map_eq_some'.mp h with ⟨r', hr', hg⟩
    rw [← hg]
    simp
  · rw [if_neg hlt] at h
    rcases Option.some.inj h with rfl
    simp

/-- Witness for C1 (amended) at the end-of-chain-start entry. -/
theorem readFile_reads_before_chain_check_witness :
    readFile cexBS5 (rootDirectoryEnd cexBS5) cexFatFF cexDisk eocEntry (0 + 1)
        = some ([(4097, 1)], readSectors cexDisk 16 4097 1)
    ∧ (1 ≤ ([((4097 : Nat), (1 : Nat))] : List (Nat × Nat)).length
       ∧ ([((4097 : Nat), (1 : Nat))] : List (Nat × Nat)).head?
           = some (clusterLBA cexBS5 (rootDirectoryEnd cexBS5)
               eocEntry.FirstClusterLow, cexBS5.SectorsPerCluster)) :=
  ⟨by decide,
   readFile_reads_before_chain_check cexBS5 (rootDirectoryEnd cexBS5) cexFatFF
     cexDisk eocEntry 0 ([(4097, 1)], readSectors cexDisk 16 4097 1) (by decide)⟩

lemma readSectors_length (disk : Nat → Nat) (bps lba count : Nat) :
    (readSectors disk bps lba count).length = count * bps := by
  simp [readSectors]

lemma readFileGo_of_chain (bs : BootSector) (rde : Nat) (fat disk : Nat → Nat) :
    ∀ (fuel cur : Nat) (cs : List Nat), chainFrom fat fuel cur = some cs →
      readFileGo bs rde fat disk fuel cur
        = some (cs.map (fun c => (clusterLBA bs rde c, bs.SectorsPerCluster)),
            cs.flatMap (fun c =>
              readSectors disk bs.BytesPerSector (clusterLBA bs rde c)
                bs.SectorsPerCluster)) := by
  intro fuel
  induction fuel with
  | zero => intro cur cs h; simp [chainFrom] at h
  | succ n ih =>
    intro cur cs h
    simp only [chainFrom] at h
    simp only [readFileGo]
    by_cases hlt : fatNextEntry fat cur < 0xFF8
    · rw [if_pos hlt] at h ⊢
      rcases Option.map_eq_some'.mp h with ⟨cs', hcs', hg⟩
      rw [← hg, ih _ _ hcs']
      simp
    · rw [if_neg hlt] at h ⊢
      rcases Option.some.inj h with rfl
      simp

lemma flatMap_readSectors_length (disk : Nat → Nat) (bps spc : Nat) (g : Nat → Nat) :
    ∀ cs : List Nat,
      (cs.flatMap (fun c => readSectors disk bps (g c) spc)).length
        = cs.length * (spc * bps) := by
  intro cs
  induction cs with
  | nil => simp
  | cons c rest ih => simp [ih, readSectors_length]; ring

/-- Claim C5: whenever the FAT chain from the entry's first cluster
reaches an end-of-chain value after visiting the clusters `cs`,
`readFile` succeeds, its output is the disk content of those clusters
concatenated in chain order, and its length is exactly
`cs.length * sectorsPerCluster * bytesPerSector` — independent of the
entry's `Size` field (no truncation). -/
theorem readFile_concat_chain_clusters (bs : BootSector) (rde : Nat)
    (fat disk : Nat → Nat) (entry : DirectoryEntry) (fuel : Nat) (cs : List Nat)
    (h : chainFrom fat fuel entry.FirstClusterLow = some cs) :
    readFile bs rde fat disk entry fuel
      = some (cs.map (fun c => (clusterLBA bs rde c, bs.SectorsPerCluster)),
          cs.flatMap (fun c =>
            readSectors disk bs.BytesPerSector (clusterLBA bs rde c)
              bs.SectorsPerCluster))
    ∧ (cs.flatMap (fun c =>
          readSectors disk bs.BytesPerSector (clusterLBA bs rde c)
            bs.SectorsPerCluster)).length
        = cs.length * (bs.SectorsPerCluster * bs.BytesPerSector) :=
  ⟨readFileGo_of_chain bs rde fat disk fuel entry.FirstClusterLow cs h,
   flatMap_readSectors_length disk bs.BytesPerSector bs.SectorsPerCluster _ cs⟩

/-- Witness for C5: the chain 2 → 3 → 5 → end-of-chain yields exactly
the three clusters' content, `3 * sectorsPerCluster * bytesPerSector`
bytes. -/
theorem readFile_concat_chain_clusters_witness :
    chainFrom cexFat5 5 kernelEntry.FirstClusterLow = some [2, 3, 5]
    ∧ (readFile cexBS5 (rootDirectoryEnd cexBS5) cexFat5 cexDisk kernelEntry 5
        = some ([2, 3, 5].map (fun c =>
              (clusterLBA cexBS5 (rootDirectoryEnd cexBS5) c,
               cexBS5.SectorsPerCluster)),
            [2, 3, 5].flatMap (fun c =>
              readSectors cexDisk cexBS5.BytesPerSector
                (clusterLBA cexBS5 (rootDirectoryEnd cexBS5) c)
                cexBS5.SectorsPerCluster))
       ∧ ([2, 3, 5].flatMap (fun c =>
            readSectors cexDisk cexBS5.BytesPerSector
              (clusterLBA cexBS5 (rootDirectoryEnd cexBS5) c)
              cexBS5.SectorsPerCluster)).length
          = ([2, 3, 5] : List Nat).length
            * (cexBS5.SectorsPerCluster * cexBS5.BytesPerSector)) :=
  ⟨by decide,
   readFile_concat_chain_clusters cexBS5 (rootDirectoryEnd cexBS5) cexFat5
     cexDisk kernelEntry 5 [2, 3, 5] (by decide)⟩

lemma findFile_eq_findq (key : List Nat) :
    ∀ (root : List DirectoryEntry) (count : Nat),
      findFile key root count
        = (root.take count).find? (fun e => decide (e.Name = key)) := by
  intro root
  induction root with
  | nil => intro count; cases count <;> simp [findFile]
  | cons e rest ih =>
    intro count
    cases count with
    | zero => simp [findFile]
    | succ n =>
      simp only [List.take_succ_cons, findFile]
      by_cases h : e.Name = key
      · rw [if_pos h, List.find?_cons_of_pos _ (by simp [h])]
      · rw [if_neg h, List.find?_cons_of_neg _ (by simp [h]), ih n]

lemma findq_append_first {α : Type} (p : α → Bool) :
    ∀ (pre : List α) (e : α) (post : List α), p e = true →
      (∀ x ∈ pre, p x = false) → (pre ++ e :: post).find? p = some e := by
  intro pre
  induction pre with
  | nil =>
    intro e post hp _
    simpa using List.find?_cons_of_pos _ hp
  | cons a pre ih =>
    intro e post hp hpre
    have ha : p a = false := hpre a (by simp)
    rw [List.cons_append, List.find?_cons_of_neg _ (by simp [ha])]
    exact ih e post hp (fun x hx => hpre x (by simp [hx]))

/-- Claim C7: `findFile` scans at most `count` slots in directory
order: it returns the first entry whose 11 name bytes equal the key
(the earliest one when duplicates exist), and returns none exactly
when no scanned slot matches. -/
theorem findFile_first_match (key : List Nat) (root : List DirectoryEntry)
    (count : Nat) :
    (∀ (pre : List DirectoryEntry) (e : DirectoryEntry)
        (post : List DirectoryEntry),
        root.take count = pre ++ e :: post → e.Name = key →
        (∀ x ∈ pre, x.Name ≠ key) → findFile key root count = some e)
    ∧ ((∀ x ∈ root.take count, x.Name ≠ key) →
        findFile key root count = none) := by
  constructor
  · intro pre e post hsplit hname hpre
    rw [findFile_eq_findq key root count, hsplit]
    exact findq_append_first _ pre e post (by simp [hname])
      (fun x hx => by simp [hpre x hx])
  · intro hall
    rw [findFile_eq_findq key root count]
    exact List.find?_eq_none.mpr (fun x hx => by simp [hall x hx])

/-- Entry with the same name as `kernelEntry` but different metadata:
duplicate-name fixture. -/
def dupEntryA : DirectoryEntry := mkEntry kernelName 0x20 2 100

/-- Second duplicate-name fixture. -/
def dupEntryB : DirectoryEntry := mkEntry kernelName 0x20 7 999

/-- A zero-filled (end-of-directory style) slot. -/
def zeroEntry : DirectoryEntry := mkEntry (List.replicate 11 0) 0 0 0

/-- Witness for C7: with a zero-filled slot first and two entries of
the same name, the earliest matching entry is returned. -/
theorem findFile_first_match_witness :
    findFile kernelName [zeroEntry, dupEntryA, dupEntryB] 3 = some dupEntryA :=
  (findFile_first_match kernelName [zeroEntry, dupEntryA, dupEntryB] 3).1
    [zeroEntry] dupEntryA [dupEntryB] (by decide) (by decide) (by decide)

lemma findFile_map_name (key : List Nat) (f : DirectoryEntry → DirectoryEntry)
    (hf : ∀ e, (f e).Name = e.Name) :
    ∀ (root : List DirectoryEntry) (count : Nat),
      findFile key (root.map f) count = (findFile key root count).map f := by
  intro root
  induction root with
  | nil => intro count; cases count <;> simp [findFile]
  | cons e rest ih =>
    intro count
    cases count with
    | zero => simp [findFile]
    | succ n =>
      by_cases h : e.Name = key
      · simp [findFile, hf, h]
      · simp [findFile, hf, h, ih n]

/-- Claim C10: `findFile` compares only the 11 name bytes.  Any
transformation of the directory that preserves names (arbitrary
attributes, cluster, size, deletion-style markers in other fields)
commutes with the search, and a non-matching slot — zero-filled or
otherwise — is simply skipped, never an early stop. -/
theorem findFile_name_bytes_only (key : List Nat) (root : List DirectoryEntry)
    (count : Nat) (f : DirectoryEntry → DirectoryEntry)
    (hf : ∀ e, (f e).Name = e.Name) (d : DirectoryEntry)
    (rest : List DirectoryEntry) (hd : d.Name ≠ key) :
    findFile key (root.map f) count = (findFile key root count).map f
    ∧ findFile key (d :: rest) (count + 1) = findFile key rest count := by
  refine ⟨findFile_map_name key f hf root count, ?_⟩
  simp [findFile, hd]

/-- 8.3 name whose first byte is the deleted marker 0xE5. -/
def delName : List Nat :=
  [0xE5, 0x44, 0x45, 0x4C, 0x20, 0x20, 0x20, 0x20, 0x54, 0x58, 0x54]

/-- Entry carrying the deleted marker in its name and the subdirectory
attribute bit. -/
def delEntry : DirectoryEntry := mkEntry delName 0x10 3 7

/-- Name-preserving rewrite turning an entry into a volume-label-like
one (attributes 0x08, zero cluster and size). -/
def relabel : DirectoryEntry → DirectoryEntry := fun e => mkEntry e.Name 0x08 0 0

/-- Witness for C10: an entry marked deleted/subdirectory is still
found by name, unchanged by attribute rewrites, and a zero-filled slot
before it does not stop the scan. -/
theorem findFile_name_bytes_only_witness :
    findFile delName ([delEntry].map relabel) 1
        = (findFile delName [delEntry] 1).map relabel
    ∧ findFile delName (zeroEntry :: [delEntry]) (1 + 1)
        = findFile delName [delEntry] 1 :=
  findFile_name_bytes_only delName [delEntry] 1 relabel (fun _ => rfl)
    zeroEntry [delEntry] (by decide)

/-- Counterexample for C8: when the first read attempt fails and the
controller reset issued after it also fails, `disk_reset` jumps to
`floppy_error` and the operation reports failure after a single read
attempt — before the 3 attempts are exhausted. -/
theorem disk_read_fails_before_three_attempts :
    disk_read (fun _ => false) (fun _ => false) = (false, 1, 1)
    ∧ (1 : Nat) < 3 := by
  decide

/-- Claim C8 (amended): the BIOS sector read makes at most 3 read
attempts, resetting the controller after every failed attempt (hence
between consecutive attempts); it succeeds as soon as any attempt
succeeds; it reports failure either immediately when a reset fails
(`disk_reset` jumps to the error handler, possibly after a single
attempt) or once all 3 attempts have failed. -/
theorem disk_read_three_attempts (attempt resetOk : Nat → Bool) :
    (attempt 0 = true → disk_read attempt resetOk = (true, 1, 0))
    ∧ (attempt 0 = false → resetOk 0 = false →
        disk_read attempt resetOk = (false, 1, 1))
    ∧ (attempt 0 = false → resetOk 0 = true → attempt 1 = true →
        disk_read attempt resetOk = (true, 2, 1))
    ∧ (attempt 0 = false → resetOk 0 = true → attempt 1 = false →
        resetOk 1 = false → disk_read attempt resetOk = (false, 2, 2))
    ∧ (attempt 0 = false → resetOk 0 = true → attempt 1 = false →
        resetOk 1 = true → attempt 2 = true →
        disk_read attempt resetOk = (true, 3, 2))
    ∧ (attempt 0 = false → resetOk 0 = true → attempt 1 = false →
        resetOk 1 = true → attempt 2 = false →
        disk_read attempt resetOk = (false, 3, 3))
    ∧ (disk_read attempt resetOk).2.1 ≤ 3 := by
  cases h0 : attempt 0 <;> cases r0 : resetOk 0 <;> cases h1 : attempt 1 <;>
    cases r1 : resetOk 1 <;> cases h2 : attempt 2 <;>
      simp [disk_read, diskReadGo, h0, r0, h1, r1, h2]

/-- Witness for C8 (amended): first attempt fails, the reset succeeds,
the second attempt succeeds — two attempts, one reset, success. -/
theorem disk_read_three_attempts_witness :
    disk_read (fun i => decide (i = 1)) (fun _ => true) = (true, 2, 1) :=
  (disk_read_three_attempts (fun i => decide (i = 1)) (fun _ => true)).2.2.1
    (by decide) (by decide) (by decide)

lemma asmClusterLBA_agrees (bs : BootSector) (hspc : bs.SectorsPerCluster = 1)
    (hrde : rootDirectoryEnd bs = 33) (c : Nat) (h2 : 2 ≤ c) (hc : c ≤ 0xFFF) :
    asmClusterLBA c = clusterLBA bs (rootDirectoryEnd bs) c := by
  rw [clusterLBA_eq_of_le bs _ c h2 (by rw [hrde, hspc]; omega)]
  unfold asmClusterLBA
  rw [hrde, hspc]
  omega

/-- Claim C9 (amended): the assembly loader and the C reader share the
12-bit FAT decode, but the assembly hardcodes the cluster-to-LBA map
as `cluster + 31` (16-bit add) with one sector per cluster instead of
deriving the data-area start from the BPB; the two walkers therefore
map clusters to the same LBAs — and read the same sector sequence for
the same FAT chain — exactly for layouts whose data area starts at
LBA 33 with `sectorsPerCluster = 1` (the standard 1.44MB layout), not
for every BPB. -/
theorem asm_c_walkers_agree_on_std_layout (bs : BootSector) (fat : Nat → Nat)
    (c : Nat) (hspc : bs.SectorsPerCluster = 1)
    (hrde : rootDirectoryEnd bs = 33) (h2 : 2 ≤ c) (hc : c ≤ 0xFFF)
    (hb0 : fat (c * 3 / 2) < 256) (hb1 : fat (c * 3 / 2 + 1) < 256) :
    asmClusterLBA c = clusterLBA bs (rootDirectoryEnd bs) c
    ∧ asmFatNextEntry fat c = fatNextEntry fat c
    ∧ ∀ cs : List Nat, (∀ x ∈ cs, 2 ≤ x ∧ x ≤ 0xFFF) →
        cs.map asmClusterLBA
          = cs.map (fun x => clusterLBA bs (rootDirectoryEnd bs) x) := by
  refine ⟨asmClusterLBA_agrees bs hspc hrde c h2 hc, ?_, ?_⟩
  · simp only [asmFatNextEntry, fatNextEntry]
    have hw : (fat (c * 3 / 2) + 256 * fat (c * 3 / 2 + 1)) % 65536
        = fat (c * 3 / 2) + 256 * fat (c * 3 / 2 + 1) :=
      Nat.mod_eq_of_lt (by omega)
    rw [hw]
  · intro cs hcs
    exact List.map_congr_left (fun x hx =>
      asmClusterLBA_agrees bs hspc hrde x (hcs x hx).1 (hcs x hx).2)

/-- BPB identical to the standard one except `ReservedSectors = 2`:
still a valid FAT12 layout, but its data area starts at LBA 34. -/
def nonStdBS : BootSector :=
  ⟨[0xEB, 0x58, 0x90], [0x4D, 0x53, 0x57, 0x49, 0x4E, 0x34, 0x2E, 0x31],
   512, 1, 2, 2, 224, 2880, 0xF0, 9, 18, 2, 0, 0, 0, 0, 0x29, 0x78563412,
   [0x44, 0x75, 0x63, 0x6B, 0x79, 0x4F, 0x53, 0x20, 0x20, 0x20, 0x20],
   [0x46, 0x41, 0x54, 0x31, 0x32, 0x20, 0x20, 0x20]⟩

/-- Counterexample for C9: on a BPB with `reservedSectors = 2` the C
reader places cluster 2 at LBA 34 while the assembly's hardcoded
`cluster + 31` yields 33 — the two walkers do not compute the same
cluster-to-LBA mapping for every BPB. -/
theorem asm_c_lba_disagree_nonstd :
    rootDirectoryEnd nonStdBS = 34
    ∧ asmClusterLBA 2 = 33
    ∧ clusterLBA nonStdBS (rootDirectoryEnd nonStdBS) 2 = 34
    ∧ asmClusterLBA 2 ≠ clusterLBA nonStdBS (rootDirectoryEnd nonStdBS) 2 := by
  decide

/-- Witness for C9 (amended) at the standard layout, cluster 5. -/
theorem asm_c_walkers_agree_on_std_layout_witness :
    asmClusterLBA 5 = clusterLBA stdBS (rootDirectoryEnd stdBS) 5
    ∧ asmFatNextEntry ex2Fat 5 = fatNextEntry ex2Fat 5 :=
  ⟨(asm_c_walkers_agree_on_std_layout stdBS ex2Fat 5 rfl (by decide) (by decide)
      (by decide) (by decide) (by decide)).1,
   (asm_c_walkers_agree_on_std_layout stdBS ex2Fat 5 rfl (by decide) (by decide)
      (by decide) (by decide) (by decide)).2.1⟩
